import Mathlib

/-!
Shallow embedding of the MerchantPay Stylus contract (src/src/lib.rs).

Identifiers (`B256` listing ids) and addresses are modelled as `Nat`, with `0`
playing the role of `Address::ZERO`.  `U256` values are modelled as `Nat`;
the wrapping 256-bit multiplication and subtraction used by the contract's
release-mode arithmetic are made explicit as `u256mul` and `u256sub`
(reduction modulo `2 ^ 256`).  External ERC-20 `transferFrom` calls are
modelled by two oracle booleans `t1 t2` giving the success of each call, and
the pair of transfers a successful payment issues is returned alongside the
new state.  An operation that returns an error leaves the state untouched,
mirroring the EVM's atomic revert of the whole call.
-/

namespace MerchantPay

/-- The four listing states of the `Status` enum; `PENDING` is the
`#[default]` variant, so a never-written storage slot decodes to it. -/
inductive Status where
  | PENDING
  | PAID
  | COMPLETED
  | CANCELLED
deriving DecidableEq, Repr

/-- The `Listing` storage struct. -/
structure Listing where
  id : Nat
  seller : Nat
  buyer : Nat
  rate : Nat
  quantity : Nat
  status : Status
deriving DecidableEq, Repr

/-- The default (never-created) listing: all fields zero, status `PENDING`. -/
def defaultListing : Listing :=
  { id := 0, seller := 0, buyer := 0, rate := 0, quantity := 0, status := Status.PENDING }

/-- The contract storage of `MerchantPay`: the USDC token address, the nested
`listings` mapping (total with `defaultListing` as the default value), the
global `listing_keys` vector and the per-seller `address_to_listing` vectors. -/
structure State where
  USDC : Nat
  listings : Nat → Nat → Listing
  listing_keys : List Nat
  address_to_listing : Nat → List Nat

/-- Freshly deployed contract: empty storage everywhere. -/
def initState : State :=
  { USDC := 0
    listings := fun _ _ => defaultListing
    listing_keys := []
    address_to_listing := fun _ => [] }

/-- The `MerchantPayError` variants. -/
inductive Error where
  | InvalidListing
  | InvalidQuantity
  | InvalidAmount
  | InvalidSeller
  | TransferFailed
  | ListingNotFound
  | Unauthorized
deriving DecidableEq, Repr

/-- One ERC-20 `transferFrom(src, dst, amount)` call issued by the contract. -/
structure Transfer where
  src : Nat
  dst : Nat
  amount : Nat
deriving DecidableEq, Repr

/-- `2 ^ 256`, the modulus of the EVM word. -/
def U256LIM : Nat := 2 ^ 256

/-- Wrapping `U256` multiplication (release-mode `*` on `alloy` `U256`). -/
def u256mul (a b : Nat) : Nat := a * b % U256LIM

/-- Wrapping `U256` subtraction (release-mode `-` on `alloy` `U256`). -/
def u256sub (a b : Nat) : Nat := (a + U256LIM - b % U256LIM) % U256LIM

/-- `deduct_charge`: the 0.1% platform fee, `amount / 1000` by floor division. -/
def deduct_charge (amount : Nat) : Nat := amount / 1000

/-- `initialize(usdc)`: records the token address; no access control. -/
def initContract (st : State) (usdc : Nat) : Except Error State :=
  Except.ok { st with USDC := usdc }

/-- `add_listing(id, rate, quantity)` called by `caller`: rejects a zero rate
or quantity with `InvalidAmount`, otherwise overwrites the listing at
`(id, caller)` with a fresh `PENDING` listing and appends `id` to
`listing_keys` and to `caller`'s `address_to_listing` vector when absent
(the source scans each vector for `id` before pushing). -/
def add_listing (st : State) (caller id rate quantity : Nat) : Except Error State :=
  if rate = 0 ∨ quantity = 0 then
    Except.error Error.InvalidAmount
  else
    let listing : Listing :=
      { id := id, seller := caller, buyer := 0, rate := rate, quantity := quantity
        status := Status.PENDING }
    let keys1 :=
      if id ∈ st.listing_keys then st.listing_keys else st.listing_keys ++ [id]
    let mine := st.address_to_listing caller
    let mine1 := if id ∈ mine then mine else mine ++ [id]
    Except.ok
      { st with
        listings := fun i s => if i = id ∧ s = caller then listing else st.listings i s
        listing_keys := keys1
        address_to_listing := fun a => if a = caller then mine1 else st.address_to_listing a }

/-- `pay_for_listing(id, seller, quantity, amount)` called by `caller`, with
the contract's own address `contractAddr`, and `t1 t2` the outcomes of the two
external `transferFrom` calls.  Validation order follows the source: status
must be `PENDING` or `PAID`, the requested quantity must not exceed the
remaining quantity, `amount` must cover `price = rate * quantity`; then the
seller transfer of `price - charge` and the platform transfer of `charge` are
issued, and only afterwards is the updated listing persisted. -/
def pay_for_listing (st : State) (caller contractAddr id seller quantity amount : Nat)
    (t1 t2 : Bool) : Except Error (State × List Transfer) :=
  let listing := st.listings id seller
  if listing.status ≠ Status.PENDING ∧ listing.status ≠ Status.PAID then
    Except.error Error.InvalidListing
  else if quantity > listing.quantity then
    Except.error Error.InvalidQuantity
  else
    let price := u256mul listing.rate quantity
    if amount < price then
      Except.error Error.InvalidAmount
    else
      let charge := deduct_charge listing.rate
      if t1 = false then
        Except.error Error.TransferFailed
      else if t2 = false then
        Except.error Error.TransferFailed
      else
        let updated : Listing :=
          { listing with
            buyer := caller
            quantity := listing.quantity - quantity
            status :=
              if listing.quantity - quantity = 0 then Status.COMPLETED else Status.PAID }
        Except.ok
          ({ st with
             listings := fun i s => if i = id ∧ s = seller then updated else st.listings i s },
           [{ src := caller, dst := seller, amount := u256sub price charge },
            { src := caller, dst := contractAddr, amount := charge }])

/-- `get_listing(id, seller)`: fails `ListingNotFound` when the stored seller
field is the zero address. -/
def get_listing (st : State) (id seller : Nat) : Except Error Listing :=
  let listing := st.listings id seller
  if listing.seller = 0 then Except.error Error.ListingNotFound else Except.ok listing

/-- `get_all_listings_for_address(seller)`: resolves the seller's index
vector, keeps listings whose seller field is non-zero, and fails
`ListingNotFound` on an empty result. -/
def get_all_listings_for_address (st : State) (seller : Nat) : Except Error (List Listing) :=
  let ls := ((st.address_to_listing seller).map fun i => st.listings i seller).filter
    fun l => l.seller ≠ 0
  if ls.isEmpty then Except.error Error.ListingNotFound else Except.ok ls

/-- Whether `pay_for_listing` succeeds on the given arguments. -/
def payOk (st : State) (caller contractAddr id seller quantity amount : Nat)
    (t1 t2 : Bool) : Bool :=
  match pay_for_listing st caller contractAddr id seller quantity amount t1 t2 with
  | Except.ok _ => true
  | Except.error _ => false

/-- The state after a `pay_for_listing` call: the new state on success, the
unchanged pre-state on any error (the EVM reverts the whole call). -/
def payApply (st : State) (caller contractAddr id seller quantity amount : Nat)
    (t1 t2 : Bool) : State :=
  match pay_for_listing st caller contractAddr id seller quantity amount t1 t2 with
  | Except.ok (st1, _) => st1
  | Except.error _ => st

/-- The transfers a `pay_for_listing` call commits: the two issued transfers
on success, none on any error (the EVM reverts issued transfers). -/
def payTransfers (st : State) (caller contractAddr id seller quantity amount : Nat)
    (t1 t2 : Bool) : List Transfer :=
  match pay_for_listing st caller contractAddr id seller quantity amount t1 t2 with
  | Except.ok (_, ts) => ts
  | Except.error _ => []

/-- The state after an `add_listing` call (unchanged pre-state on error). -/
def addApply (st : State) (caller id rate quantity : Nat) : State :=
  match add_listing st caller id rate quantity with
  | Except.ok st1 => st1
  | Except.error _ => st

/-- A state-mutating invocation of the contract. -/
inductive Op where
  | add (caller id rate quantity : Nat)
  | pay (caller contractAddr id seller quantity amount : Nat) (t1 t2 : Bool)
  | init (usdc : Nat)
deriving Repr

/-- Executing one invocation: a failing call leaves the state unchanged. -/
def step (st : State) (op : Op) : State :=
  match op with
  | Op.add c i r q => addApply st c i r q
  | Op.pay c ca i s q a t1 t2 => payApply st c ca i s q a t1 t2
  | Op.init u => { st with USDC := u }

/-- The state reached from a fresh deployment by a call sequence. -/
def run (ops : List Op) : State := ops.foldl step initState

/-- The contract state together with ghost history: for each `(id, seller)`
key, whether a successful payment has been applied since the last creation,
and whether any successful creation or payment ever touched the key. -/
structure GState where
  base : State
  paidSince : Nat → Nat → Bool
  touched : Nat → Nat → Bool

/-- Ghost-augmented execution of one invocation. -/
def gstep (g : GState) (op : Op) : GState :=
  match op with
  | Op.add c i r q =>
    match add_listing g.base c i r q with
    | Except.ok st1 =>
      { base := st1
        paidSince := fun i2 s2 => if i2 = i ∧ s2 = c then false else g.paidSince i2 s2
        touched := fun i2 s2 => if i2 = i ∧ s2 = c then true else g.touched i2 s2 }
    | Except.error _ => g
  | Op.pay c ca i s q a t1 t2 =>
    match pay_for_listing g.base c ca i s q a t1 t2 with
    | Except.ok (st1, _) =>
      { base := st1
        paidSince := fun i2 s2 => if i2 = i ∧ s2 = s then true else g.paidSince i2 s2
        touched := fun i2 s2 => if i2 = i ∧ s2 = s then true else g.touched i2 s2 }
    | Except.error _ => g
  | Op.init u => { g with base := { g.base with USDC := u } }

/-- Fresh deployment with empty ghost history. -/
def ginit : GState :=
  { base := initState, paidSince := fun _ _ => false, touched := fun _ _ => false }

/-- Ghost-augmented execution of a call sequence from a fresh deployment. -/
def grun (ops : List Op) : GState := ops.foldl gstep ginit

/-! ### Characterization lemmas for `pay_for_listing` -/

theorem pay_invalid_status (st : State) (c ca i s q a : Nat) (t1 t2 : Bool)
    (h : ¬((st.listings i s).status = Status.PENDING ∨ (st.listings i s).status = Status.PAID)) :
    pay_for_listing st c ca i s q a t1 t2 = Except.error Error.InvalidListing := by
  push_neg at h
  simp only [pay_for_listing]
  rw [if_pos h]

theorem pay_invalid_quantity (st : State) (c ca i s q a : Nat) (t1 t2 : Bool)
    (hs : (st.listings i s).status = Status.PENDING ∨ (st.listings i s).status = Status.PAID)
    (h : q > (st.listings i s).quantity) :
    pay_for_listing st c ca i s q a t1 t2 = Except.error Error.InvalidQuantity := by
  simp only [pay_for_listing]
  rw [if_neg (by rcases hs with h1 | h1 <;> simp [h1]), if_pos h]

theorem pay_invalid_amount (st : State) (c ca i s q a : Nat) (t1 t2 : Bool)
    (hs : (st.listings i s).status = Status.PENDING ∨ (st.listings i s).status = Status.PAID)
    (hq : q ≤ (st.listings i s).quantity)
    (h : a < u256mul (st.listings i s).rate q) :
    pay_for_listing st c ca i s q a t1 t2 = Except.error Error.InvalidAmount := by
  simp only [pay_for_listing]
  rw [if_neg (by rcases hs with h1 | h1 <;> simp [h1]), if_neg (not_lt.mpr hq), if_pos h]

theorem pay_transfer_failed (st : State) (c ca i s q a : Nat) (t1 t2 : Bool)
    (hs : (st.listings i s).status = Status.PENDING ∨ (st.listings i s).status = Status.PAID)
    (hq : q ≤ (st.listings i s).quantity)
    (ha : ¬ a < u256mul (st.listings i s).rate q)
    (h : t1 = false ∨ t2 = false) :
    pay_for_listing st c ca i s q a t1 t2 = Except.error Error.TransferFailed := by
  simp only [pay_for_listing]
  rw [if_neg (by rcases hs with h1 | h1 <;> simp [h1]), if_neg (not_lt.mpr hq), if_neg ha]
  rcases h with h | h
  · rw [if_pos h]
  · cases t1
    · rw [if_pos rfl]
    · rw [if_neg (by simp), if_pos h]

theorem pay_ok_result (st : State) (c ca i s q a : Nat)
    (hs : (st.listings i s).status = Status.PENDING ∨ (st.listings i s).status = Status.PAID)
    (hq : q ≤ (st.listings i s).quantity)
    (ha : ¬ a < u256mul (st.listings i s).rate q) :
    pay_for_listing st c ca i s q a true true =
      Except.ok
        ({ st with
           listings := fun i2 s2 =>
             if i2 = i ∧ s2 = s then
               { st.listings i s with
                 buyer := c
                 quantity := (st.listings i s).quantity - q
                 status :=
                   if (st.listings i s).quantity - q = 0 then Status.COMPLETED
                   else Status.PAID }
             else st.listings i2 s2 },
         [{ src := c, dst := s
            amount := u256sub (u256mul (st.listings i s).rate q)
              (deduct_charge (st.listings i s).rate) },
          { src := c, dst := ca, amount := deduct_charge (st.listings i s).rate }]) := by
  simp only [pay_for_listing]
  rw [if_neg (by rcases hs with h1 | h1 <;> simp [h1]), if_neg (not_lt.mpr hq), if_neg ha,
    if_neg (by simp), if_neg (by simp)]

theorem payOk_of_error (st : State) (c ca i s q a : Nat) (t1 t2 : Bool) (e : Error)
    (h : pay_for_listing st c ca i s q a t1 t2 = Except.error e) :
    payOk st c ca i s q a t1 t2 = false := by
  simp [payOk, h]

theorem pay_success_iff (st : State) (c ca i s q a : Nat) (t1 t2 : Bool) :
    payOk st c ca i s q a t1 t2 = true ↔
      ((st.listings i s).status = Status.PENDING ∨ (st.listings i s).status = Status.PAID) ∧
        q ≤ (st.listings i s).quantity ∧
        ¬ a < u256mul (st.listings i s).rate q ∧ t1 = true ∧ t2 = true := by
  constructor
  · intro h
    by_cases h1 :
        (st.listings i s).status = Status.PENDING ∨ (st.listings i s).status = Status.PAID
    · by_cases h2 : q ≤ (st.listings i s).quantity
      · by_cases h3 : a < u256mul (st.listings i s).rate q
        · rw [payOk_of_error st c ca i s q a t1 t2 _
            (pay_invalid_amount st c ca i s q a t1 t2 h1 h2 h3)] at h
          cases h
        · cases ht1 : t1 with
          | false =>
            rw [payOk_of_error st c ca i s q a t1 t2 _
              (pay_transfer_failed st c ca i s q a t1 t2 h1 h2 h3 (Or.inl ht1))] at h
            cases h
          | true =>
            cases ht2 : t2 with
            | false =>
              rw [payOk_of_error st c ca i s q a t1 t2 _
                (pay_transfer_failed st c ca i s q a t1 t2 h1 h2 h3 (Or.inr ht2))] at h
              cases h
            | true => exact ⟨h1, h2, h3, rfl, rfl⟩
      · rw [payOk_of_error st c ca i s q a t1 t2 _
          (pay_invalid_quantity st c ca i s q a t1 t2 h1 (not_le.mp h2))] at h
        cases h
    · rw [payOk_of_error st c ca i s q a t1 t2 _
        (pay_invalid_status st c ca i s q a t1 t2 h1)] at h
      cases h
  · rintro ⟨h1, h2, h3, rfl, rfl⟩
    simp [payOk, pay_ok_result st c ca i s q a h1 h2 h3]

theorem payApply_ok (st : State) (c ca i s q a : Nat)
    (hs : (st.listings i s).status = Status.PENDING ∨ (st.listings i s).status = Status.PAID)
    (hq : q ≤ (st.listings i s).quantity)
    (ha : ¬ a < u256mul (st.listings i s).rate q) :
    payApply st c ca i s q a true true =
      { st with
        listings := fun i2 s2 =>
          if i2 = i ∧ s2 = s then
            { st.listings i s with
              buyer := c
              quantity := (st.listings i s).quantity - q
              status :=
                if (st.listings i s).quantity - q = 0 then Status.COMPLETED
                else Status.PAID }
          else st.listings i2 s2 } := by
  simp [payApply, pay_ok_result st c ca i s q a hs hq ha]

theorem payTransfers_ok (st : State) (c ca i s q a : Nat)
    (hs : (st.listings i s).status = Status.PENDING ∨ (st.listings i s).status = Status.PAID)
    (hq : q ≤ (st.listings i s).quantity)
    (ha : ¬ a < u256mul (st.listings i s).rate q) :
    payTransfers st c ca i s q a true true =
      [{ src := c, dst := s
         amount := u256sub (u256mul (st.listings i s).rate q)
           (deduct_charge (st.listings i s).rate) },
       { src := c, dst := ca, amount := deduct_charge (st.listings i s).rate }] := by
  simp [payTransfers, pay_ok_result st c ca i s q a hs hq ha]

/-- Inversion of a successful `pay_for_listing`: the validations held and the new state
only rewrites the listing at `(id, seller)`. -/
theorem pay_ok_shape (st : State) (c ca i s q a : Nat) (t1 t2 : Bool) (st1 : State)
    (ts : List Transfer)
    (h : pay_for_listing st c ca i s q a t1 t2 = Except.ok (st1, ts)) :
    ((st.listings i s).status = Status.PENDING ∨ (st.listings i s).status = Status.PAID) ∧
      q ≤ (st.listings i s).quantity ∧
      st1 =
        { st with
          listings := fun i2 s2 =>
            if i2 = i ∧ s2 = s then
              { st.listings i s with
                buyer := c
                quantity := (st.listings i s).quantity - q
                status :=
                  if (st.listings i s).quantity - q = 0 then Status.COMPLETED
                  else Status.PAID }
            else st.listings i2 s2 } := by
  simp only [pay_for_listing] at h
  split_ifs at h with h1 h2 h3 h4 h5 h6
  · rw [Except.ok.injEq, Prod.mk.injEq] at h
    have hstat : (st.listings i s).status = Status.PENDING ∨
        (st.listings i s).status = Status.PAID := by
      by_contra hc
      push_neg at hc
      exact h1 hc
    refine ⟨hstat, not_lt.mp h2, ?_⟩
    rw [← h.1, if_pos h6]
  · rw [Except.ok.injEq, Prod.mk.injEq] at h
    have hstat : (st.listings i s).status = Status.PENDING ∨
        (st.listings i s).status = Status.PAID := by
      by_contra hc
      push_neg at hc
      exact h1 hc
    refine ⟨hstat, not_lt.mp h2, ?_⟩
    rw [← h.1, if_neg h6]

/-- The index vectors and token address are untouched by `pay_for_listing`. -/
theorem payApply_index (st : State) (c ca i s q a : Nat) (t1 t2 : Bool) :
    (payApply st c ca i s q a t1 t2).listing_keys = st.listing_keys ∧
      (payApply st c ca i s q a t1 t2).address_to_listing = st.address_to_listing := by
  unfold payApply
  cases hpay : pay_for_listing st c ca i s q a t1 t2 with
  | error e => exact ⟨rfl, rfl⟩
  | ok v =>
    obtain ⟨st1, ts⟩ := v
    obtain ⟨hs, hq, hst1⟩ := pay_ok_shape st c ca i s q a t1 t2 st1 ts (by rw [hpay])
    simp [hst1]

/-- The overwritten state of a successful `add_listing`: the fresh listing at
`(id, caller)` and the two conditional index appends. -/
theorem addApply_fields (st : State) (c i r q : Nat) (h : ¬(r = 0 ∨ q = 0)) :
    (addApply st c i r q).listing_keys =
        (if i ∈ st.listing_keys then st.listing_keys else st.listing_keys ++ [i]) ∧
      (∀ a, (addApply st c i r q).address_to_listing a =
        (if a = c then
          (if i ∈ st.address_to_listing c then st.address_to_listing c
           else st.address_to_listing c ++ [i])
         else st.address_to_listing a)) ∧
      (∀ i2 s2, (addApply st c i r q).listings i2 s2 =
        (if i2 = i ∧ s2 = c then
          { id := i, seller := c, buyer := 0, rate := r, quantity := q
            status := Status.PENDING }
         else st.listings i2 s2)) := by
  refine ⟨?_, fun a => ?_, fun i2 s2 => ?_⟩ <;> simp [addApply, add_listing, h]

/-- A failing `add_listing` leaves the state untouched. -/
theorem addApply_error (st : State) (c i r q : Nat) (h : r = 0 ∨ q = 0) :
    addApply st c i r q = st := by
  simp [addApply, add_listing, h]

/-- Both index vectors stay duplicate-free across any single invocation. -/
theorem indexNodup_step (st : State) (op : Op)
    (h : st.listing_keys.Nodup ∧ ∀ a, (st.address_to_listing a).Nodup) :
    (step st op).listing_keys.Nodup ∧ ∀ a, ((step st op).address_to_listing a).Nodup := by
  cases op with
  | add c i r q =>
    by_cases hrq : r = 0 ∨ q = 0
    · rw [step, addApply_error st c i r q hrq]
      exact h
    · obtain ⟨hk, ha, _⟩ := addApply_fields st c i r q hrq
      rw [step]
      constructor
      · rw [hk]
        split_ifs with hmem
        · exact h.1
        · simp [List.nodup_append, h.1, hmem]
      · intro a
        rw [ha a]
        split_ifs with hac hmem
        · exact h.2 c
        · simp [List.nodup_append, h.2 c, hmem]
        · exact h.2 a
  | pay c ca i s q a t1 t2 =>
    obtain ⟨hk, ha⟩ := payApply_index st c ca i s q a t1 t2
    rw [step, hk, ha]
    exact h
  | init u => exact h

/-- Both index vectors are duplicate-free in every reachable state. -/
theorem indexNodup_run (ops : List Op) :
    (run ops).listing_keys.Nodup ∧ ∀ a, ((run ops).address_to_listing a).Nodup := by
  have key : ∀ (l : List Op) (st : State),
      (st.listing_keys.Nodup ∧ ∀ a, (st.address_to_listing a).Nodup) →
      ((l.foldl step st).listing_keys.Nodup ∧
        ∀ a, ((l.foldl step st).address_to_listing a).Nodup) := by
    intro l
    induction l with
    | nil => exact fun st hst => hst
    | cons op rest ih => exact fun st hst => ih (step st op) (indexNodup_step st op hst)
  exact key ops initState ⟨List.nodup_nil, fun _ => List.nodup_nil⟩

/-- The wrapping subtraction agrees with exact subtraction when no underflow occurs. -/
theorem u256sub_eq_sub (a b : Nat) (hb : b ≤ a) (ha : a < U256LIM) :
    u256sub a b = a - b := by
  unfold u256sub
  rw [Nat.mod_eq_of_lt (lt_of_le_of_lt hb ha)]
  have hL : a + U256LIM - b = U256LIM + (a - b) := by omega
  rw [hL, Nat.add_mod_left, Nat.mod_eq_of_lt (by omega)]

/-! ### Claim theorems -/

/-- C1: for every successful `pay_for_listing(id, seller, quantity, amount)` call, the
persisted listing at `(id, seller)` afterwards has `buyer` equal to the caller and
`quantity` equal to its pre-call quantity minus the requested quantity — which cannot go
negative, since success forces the request not to exceed the remaining quantity — and
status `COMPLETED` when the new quantity is zero, else `PAID`. -/
theorem pay_success_updates_listing (st : State) (c ca i s q a : Nat) (t1 t2 : Bool)
    (h : payOk st c ca i s q a t1 t2 = true) :
    q ≤ (st.listings i s).quantity ∧
      ((payApply st c ca i s q a t1 t2).listings i s).buyer = c ∧
      ((payApply st c ca i s q a t1 t2).listings i s).quantity =
        (st.listings i s).quantity - q ∧
      ((payApply st c ca i s q a t1 t2).listings i s).status =
        (if (st.listings i s).quantity - q = 0 then Status.COMPLETED else Status.PAID) := by
  obtain ⟨h1, h2, h3, rfl, rfl⟩ := (pay_success_iff st c ca i s q a t1 t2).mp h
  rw [payApply_ok st c ca i s q a h1 h2 h3]
  refine ⟨h2, ?_, ?_, ?_⟩ <;> simp

/-- Witness for C1: the spec's scenario — seller 1 lists id 5 at rate 100 with quantity
10, buyer 2 pays for 4 units at amount 400. -/
theorem pay_success_updates_listing_inst :
    4 ≤ ((run [Op.add 1 5 100 10]).listings 5 1).quantity ∧
      ((payApply (run [Op.add 1 5 100 10]) 2 7 5 1 4 400 true true).listings 5 1).buyer = 2 ∧
      ((payApply (run [Op.add 1 5 100 10]) 2 7 5 1 4 400 true true).listings 5 1).quantity =
        ((run [Op.add 1 5 100 10]).listings 5 1).quantity - 4 ∧
      ((payApply (run [Op.add 1 5 100 10]) 2 7 5 1 4 400 true true).listings 5 1).status =
        (if ((run [Op.add 1 5 100 10]).listings 5 1).quantity - 4 = 0 then Status.COMPLETED
         else Status.PAID) :=
  pay_success_updates_listing (run [Op.add 1 5 100 10]) 2 7 5 1 4 400 true true (by decide)

/-- C2: in every successful `pay_for_listing` call the fee equals `rate / 1000` by
integer floor division of the stored unit rate, independent of the requested quantity;
the seller-directed transfer amount is `price - fee` and the platform-directed transfer
is `fee`, where `price = rate * quantity_requested` in 256-bit arithmetic. -/
theorem pay_fee_split (st : State) (c ca i s q a : Nat) (t1 t2 : Bool)
    (h : payOk st c ca i s q a t1 t2 = true) :
    payTransfers st c ca i s q a t1 t2 =
      [{ src := c, dst := s
         amount := u256sub (u256mul (st.listings i s).rate q)
           (deduct_charge (st.listings i s).rate) },
       { src := c, dst := ca, amount := deduct_charge (st.listings i s).rate }] ∧
      deduct_charge (st.listings i s).rate = (st.listings i s).rate / 1000 := by
  obtain ⟨h1, h2, h3, rfl, rfl⟩ := (pay_success_iff st c ca i s q a t1 t2).mp h
  exact ⟨payTransfers_ok st c ca i s q a h1 h2 h3, rfl⟩

/-- Witness for C2: the spec's fee scenario — rate 5000, paying quantity 2 at amount
10000 sends 9995 to the seller and 5 to the platform. -/
theorem pay_fee_split_inst :
    payTransfers (run [Op.add 1 5 5000 10]) 2 7 5 1 2 10000 true true =
      [{ src := 2, dst := 1, amount := 9995 }, { src := 2, dst := 7, amount := 5 }] :=
  ((pay_fee_split (run [Op.add 1 5 5000 10]) 2 7 5 1 2 10000 true true (by decide)).1).trans
    (by decide)

/-- C3: `pay_for_listing` validates in a fixed order with exactly these errors: first
`InvalidListing` when the stored status is neither `PENDING` nor `PAID`, then
`InvalidQuantity` when the requested quantity exceeds the remaining quantity, then
`InvalidAmount` when `amount < price = rate * quantity`; the transfer outcomes are not
consulted unless all three validations pass. -/
theorem pay_validation_order (st : State) (c ca i s q a : Nat) (t1 t2 : Bool) :
    (pay_for_listing st c ca i s q a t1 t2 = Except.error Error.InvalidListing ↔
      ¬((st.listings i s).status = Status.PENDING ∨
        (st.listings i s).status = Status.PAID)) ∧
    (pay_for_listing st c ca i s q a t1 t2 = Except.error Error.InvalidQuantity ↔
      ((st.listings i s).status = Status.PENDING ∨ (st.listings i s).status = Status.PAID) ∧
        q > (st.listings i s).quantity) ∧
    (pay_for_listing st c ca i s q a t1 t2 = Except.error Error.InvalidAmount ↔
      ((st.listings i s).status = Status.PENDING ∨ (st.listings i s).status = Status.PAID) ∧
        q ≤ (st.listings i s).quantity ∧ a < u256mul (st.listings i s).rate q) ∧
    (¬(((st.listings i s).status = Status.PENDING ∨
          (st.listings i s).status = Status.PAID) ∧
        q ≤ (st.listings i s).quantity ∧ ¬ a < u256mul (st.listings i s).rate q) →
      ∀ u1 u2 : Bool,
        pay_for_listing st c ca i s q a u1 u2 = pay_for_listing st c ca i s q a t1 t2) := by
  by_cases h1 :
      (st.listings i s).status = Status.PENDING ∨ (st.listings i s).status = Status.PAID
  · by_cases h2 : q ≤ (st.listings i s).quantity
    · by_cases h3 : a < u256mul (st.listings i s).rate q
      · have e : ∀ u1 u2 : Bool,
            pay_for_listing st c ca i s q a u1 u2 = Except.error Error.InvalidAmount :=
          fun u1 u2 => pay_invalid_amount st c ca i s q a u1 u2 h1 h2 h3
        refine ⟨?_, ?_, ?_, fun _ u1 u2 => (e u1 u2).trans (e t1 t2).symm⟩ <;>
          rw [e t1 t2] <;> simp [h1, h2, h3, not_lt.mpr h2]
      · refine ⟨?_, ?_, ?_, fun hcon _ _ => absurd ⟨h1, h2, h3⟩ hcon⟩ <;>
          cases t1 <;> cases t2 <;>
          first
          | (rw [pay_transfer_failed st c ca i s q a _ _ h1 h2 h3 (Or.inl rfl)]
             simp [h1, h3, not_lt.mpr h2])
          | (rw [pay_transfer_failed st c ca i s q a _ _ h1 h2 h3 (Or.inr rfl)]
             simp [h1, h3, not_lt.mpr h2])
          | (rw [pay_ok_result st c ca i s q a h1 h2 h3]
             simp [h1, h3, not_lt.mpr h2])
    · have e : ∀ u1 u2 : Bool,
          pay_for_listing st c ca i s q a u1 u2 = Except.error Error.InvalidQuantity :=
        fun u1 u2 => pay_invalid_quantity st c ca i s q a u1 u2 h1 (not_le.mp h2)
      refine ⟨?_, ?_, ?_, fun _ u1 u2 => (e u1 u2).trans (e t1 t2).symm⟩ <;>
        rw [e t1 t2] <;> simp [h1, h2, not_le.mp h2]
  · have e : ∀ u1 u2 : Bool,
        pay_for_listing st c ca i s q a u1 u2 = Except.error Error.InvalidListing :=
      fun u1 u2 => pay_invalid_status st c ca i s q a u1 u2 h1
    refine ⟨?_, ?_, ?_, fun _ u1 u2 => (e u1 u2).trans (e t1 t2).symm⟩ <;>
      rw [e t1 t2] <;> simp [h1]

/-- Witness for C3: a COMPLETED listing rejects with `InvalidListing`; over-large
quantity rejects with `InvalidQuantity`; an insufficient amount rejects with
`InvalidAmount`; and a validation failure gives the same result whatever the transfer
outcomes would have been. -/
theorem pay_validation_order_inst :
    pay_for_listing (run [Op.add 1 5 100 10, Op.pay 2 7 5 1 10 1000 true true])
        2 7 5 1 1 100 true true = Except.error Error.InvalidListing ∧
      pay_for_listing (run [Op.add 1 5 100 10]) 2 7 5 1 11 2000 true true =
        Except.error Error.InvalidQuantity ∧
      pay_for_listing (run [Op.add 1 5 100 10]) 2 7 5 1 4 399 true true =
        Except.error Error.InvalidAmount ∧
      pay_for_listing (run [Op.add 1 5 100 10]) 2 7 5 1 11 2000 false false =
        Except.error Error.InvalidQuantity :=
  ⟨(pay_validation_order (run [Op.add 1 5 100 10, Op.pay 2 7 5 1 10 1000 true true])
      2 7 5 1 1 100 true true).1.mpr (by decide),
   (pay_validation_order (run [Op.add 1 5 100 10]) 2 7 5 1 11 2000 true true).2.1.mpr
     (by decide),
   (pay_validation_order (run [Op.add 1 5 100 10]) 2 7 5 1 4 399 true true).2.2.1.mpr
     (by decide),
   ((pay_validation_order (run [Op.add 1 5 100 10]) 2 7 5 1 11 2000 true true).2.2.2
       (by decide) false false).trans
     ((pay_validation_order (run [Op.add 1 5 100 10]) 2 7 5 1 11 2000 true true).2.1.mpr
       (by decide))⟩

/-- C5: whenever `pay_for_listing` returns an error — `InvalidListing`,
`InvalidQuantity`, `InvalidAmount`, or `TransferFailed`, including a failure of only the
second of the two transfers — the persisted contract state after the call is identical
to the state before it, and no transfer is committed. -/
theorem pay_error_rollback (st : State) (c ca i s q a : Nat) (t1 t2 : Bool) (e : Error)
    (h : pay_for_listing st c ca i s q a t1 t2 = Except.error e) :
    payApply st c ca i s q a t1 t2 = st ∧ payTransfers st c ca i s q a t1 t2 = [] := by
  simp [payApply, payTransfers, h]

/-- Witness for C5: the second transfer fails (`t2 = false`) on an otherwise valid
payment and the state is returned untouched with no committed transfer. -/
theorem pay_error_rollback_inst :
    payApply (run [Op.add 1 5 100 10]) 2 7 5 1 4 400 true false = run [Op.add 1 5 100 10] ∧
      payTransfers (run [Op.add 1 5 100 10]) 2 7 5 1 4 400 true false = [] :=
  pay_error_rollback (run [Op.add 1 5 100 10]) 2 7 5 1 4 400 true false Error.TransferFailed
    (pay_transfer_failed (run [Op.add 1 5 100 10]) 2 7 5 1 4 400 true false
      (by decide) (by decide) (by decide) (Or.inr rfl))

/-- C7: `add_listing(id, rate, quantity)` fails `InvalidAmount` iff `rate = 0` or
`quantity = 0`; otherwise it succeeds and the listing stored at `(id, caller)` is exactly
the fresh record with `seller = caller`, `buyer = 0`, status `PENDING` and the given rate
and quantity, regardless of what was stored at that key before. -/
theorem add_listing_spec (st : State) (c i r q : Nat) :
    (add_listing st c i r q = Except.error Error.InvalidAmount ↔ r = 0 ∨ q = 0) ∧
      (¬(r = 0 ∨ q = 0) →
        add_listing st c i r q = Except.ok (addApply st c i r q) ∧
          (addApply st c i r q).listings i c =
            { id := i, seller := c, buyer := 0, rate := r, quantity := q
              status := Status.PENDING }) := by
  constructor
  · constructor
    · intro h
      by_contra hc
      simp [add_listing, hc] at h
    · intro h
      simp [add_listing, h]
  · intro h
    refine ⟨?_, ?_⟩ <;> simp [addApply, add_listing, h]

/-- Witness for C7: a zero rate is rejected; creating id 5 at rate 100, quantity 10 as
caller 1 stores the expected fresh PENDING listing. -/
theorem add_listing_spec_inst :
    add_listing initState 1 5 0 10 = Except.error Error.InvalidAmount ∧
      (addApply initState 1 5 100 10).listings 5 1 =
        { id := 5, seller := 1, buyer := 0, rate := 100, quantity := 10
          status := Status.PENDING } :=
  ⟨(add_listing_spec initState 1 5 0 10).1.mpr (Or.inl rfl),
   ((add_listing_spec initState 1 5 100 10).2 (by decide)).2⟩

/-- C8: in every reachable state each id occurs at most once in the global
`listing_keys` vector and at most once in each seller's `address_to_listing` vector;
after a successful `add_listing(id, ...)` by a seller the id occurs exactly once in both
relevant vectors, and repeating the same call leaves both vectors unchanged. -/
theorem index_dedup (ops : List Op) (c i r q a2 : Nat) :
    (run ops).listing_keys.Nodup ∧
      ((run ops).address_to_listing a2).Nodup ∧
      (¬(r = 0 ∨ q = 0) →
        (addApply (run ops) c i r q).listing_keys.count i = 1 ∧
          ((addApply (run ops) c i r q).address_to_listing c).count i = 1 ∧
          (addApply (addApply (run ops) c i r q) c i r q).listing_keys =
            (addApply (run ops) c i r q).listing_keys ∧
          (addApply (addApply (run ops) c i r q) c i r q).address_to_listing a2 =
            (addApply (run ops) c i r q).address_to_listing a2) := by
  obtain ⟨hk, ha⟩ := indexNodup_run ops
  refine ⟨hk, ha a2, fun hrq => ?_⟩
  set st := run ops with hstdef
  obtain ⟨hk1, ha1, _⟩ := addApply_fields st c i r q hrq
  have hmemk : i ∈ (addApply st c i r q).listing_keys := by
    rw [hk1]
    split_ifs with hm
    · exact hm
    · simp
  have hmema : i ∈ (addApply st c i r q).address_to_listing c := by
    rw [ha1 c, if_pos rfl]
    split_ifs with hm
    · exact hm
    · simp
  have hnodup1 := indexNodup_step st (Op.add c i r q) ⟨hk, ha⟩
  obtain ⟨hk2, ha2, _⟩ := addApply_fields (addApply st c i r q) c i r q hrq
  refine ⟨List.count_eq_one_of_mem hnodup1.1 hmemk,
    List.count_eq_one_of_mem (hnodup1.2 c) hmema, ?_, ?_⟩
  · rw [hk2, if_pos hmemk]
  · rw [ha2 a2]
    by_cases hac : a2 = c
    · subst hac
      rw [if_pos rfl, if_pos hmema]
    · rw [if_neg hac]

/-- Witness for C8 at the empty trace: creating id 5 as caller 1 puts it exactly once in
both vectors, and re-creating leaves them unchanged. -/
theorem index_dedup_inst :
    (run []).listing_keys.Nodup ∧
      ((run []).address_to_listing 1).Nodup ∧
      ((addApply (run []) 1 5 100 10).listing_keys.count 5 = 1 ∧
        ((addApply (run []) 1 5 100 10).address_to_listing 1).count 5 = 1 ∧
        (addApply (addApply (run []) 1 5 100 10) 1 5 100 10).listing_keys =
          (addApply (run []) 1 5 100 10).listing_keys ∧
        (addApply (addApply (run []) 1 5 100 10) 1 5 100 10).address_to_listing 1 =
          (addApply (run []) 1 5 100 10).address_to_listing 1) :=
  ⟨(index_dedup [] 1 5 100 10 1).1, (index_dedup [] 1 5 100 10 1).2.1,
   (index_dedup [] 1 5 100 10 1).2.2 (by decide)⟩

/-- C9: for every listing whose status is `PENDING` or `PAID` — including the default
never-created listing at any key, whose status defaults to `PENDING` — a
`pay_for_listing` call requesting quantity 0 passes all three validation checks for
every amount; when both transfers succeed it records the caller as buyer, leaves the
quantity unchanged, and sets the status to `COMPLETED` when the stored quantity is zero
and to `PAID` otherwise. -/
theorem pay_zero_quantity (st : State) (c ca i s a : Nat)
    (hs : (st.listings i s).status = Status.PENDING ∨
      (st.listings i s).status = Status.PAID) :
    payOk st c ca i s 0 a true true = true ∧
      (payApply st c ca i s 0 a true true).listings i s =
        { st.listings i s with
          buyer := c
          status :=
            if (st.listings i s).quantity = 0 then Status.COMPLETED else Status.PAID } := by
  have hq : 0 ≤ (st.listings i s).quantity := Nat.zero_le _
  have ha : ¬ a < u256mul (st.listings i s).rate 0 := by simp [u256mul]
  constructor
  · exact (pay_success_iff st c ca i s 0 a true true).mpr ⟨hs, hq, ha, rfl, rfl⟩
  · rw [payApply_ok st c ca i s 0 a hs hq ha]
    simp

/-- Witness for C9: paying quantity 0 at amount 0 against the never-created slot
`(5, 9)` of a fresh deployment succeeds and turns it into a COMPLETED record whose
seller is still the zero address. -/
theorem pay_zero_quantity_inst :
    (payOk initState 2 7 5 9 0 0 true true = true ∧
        (payApply initState 2 7 5 9 0 0 true true).listings 5 9 =
          { initState.listings 5 9 with
            buyer := 2
            status :=
              if (initState.listings 5 9).quantity = 0 then Status.COMPLETED
              else Status.PAID }) ∧
      ((payApply initState 2 7 5 9 0 0 true true).listings 5 9).seller = 0 ∧
      ((payApply initState 2 7 5 9 0 0 true true).listings 5 9).status = Status.COMPLETED :=
  ⟨pay_zero_quantity initState 2 7 5 9 0 (Or.inl rfl), by decide, by decide⟩

/-- Counterexample to C10 as stated: with a listing of rate `2 ^ 255` and quantity 2, a
payment requesting quantity 2 (so at least 1) succeeds — the wrapped price
`u256mul (2 ^ 255) 2 = 0` makes the amount check vacuous and there is no guard that the
charge fits under the price — yet `charge = 2 ^ 255 / 1000` exceeds that price, so the
claimed chain `charge ≤ rate ≤ rate * quantity = price` breaks and the seller-transfer
subtraction underflows, wrapping to `2 ^ 256 - charge`. -/
theorem charge_underflow_cex :
    payOk (run [Op.add 1 5 (2 ^ 255) 2]) 2 7 5 1 2 0 true true = true ∧
      deduct_charge ((run [Op.add 1 5 (2 ^ 255) 2]).listings 5 1).rate >
        u256mul ((run [Op.add 1 5 (2 ^ 255) 2]).listings 5 1).rate 2 ∧
      payTransfers (run [Op.add 1 5 (2 ^ 255) 2]) 2 7 5 1 2 0 true true =
        [{ src := 2, dst := 1, amount := U256LIM - deduct_charge (2 ^ 255) },
         { src := 2, dst := 7, amount := deduct_charge (2 ^ 255) }] := by
  refine ⟨by decide, by decide, by decide⟩

/-- C10 (amended): the seller transfer of a successful payment is the unchecked wrapping
subtraction `u256sub price charge` with `price = u256mul rate quantity` and
`charge = deduct_charge rate = rate / 1000`; whenever the requested quantity is at least
1 and `rate * quantity` does not wrap past `2 ^ 256`,
`charge ≤ rate ≤ rate * quantity = price` and the subtraction is exact, so it cannot
underflow; but for a requested quantity of 0 with `rate ≥ 1000` the charge exceeds the
zero price and the subtraction underflows, wrapping to `2 ^ 256 - charge`. -/
theorem charge_underflow (st : State) (c ca i s q a : Nat) (t1 t2 : Bool)
    (hr : (st.listings i s).rate < U256LIM) :
    (payOk st c ca i s q a t1 t2 = true →
      (payTransfers st c ca i s q a t1 t2).head? =
        some { src := c, dst := s
               amount := u256sub (u256mul (st.listings i s).rate q)
                 (deduct_charge (st.listings i s).rate) }) ∧
      (1 ≤ q → (st.listings i s).rate * q < U256LIM →
        deduct_charge (st.listings i s).rate ≤ (st.listings i s).rate ∧
          (st.listings i s).rate ≤ u256mul (st.listings i s).rate q ∧
          u256sub (u256mul (st.listings i s).rate q) (deduct_charge (st.listings i s).rate) =
            u256mul (st.listings i s).rate q - deduct_charge (st.listings i s).rate) ∧
      (q = 0 → 1000 ≤ (st.listings i s).rate →
        u256mul (st.listings i s).rate q < deduct_charge (st.listings i s).rate ∧
          u256sub (u256mul (st.listings i s).rate q) (deduct_charge (st.listings i s).rate) =
            U256LIM - deduct_charge (st.listings i s).rate) := by
  refine ⟨?_, ?_, ?_⟩
  · intro h
    obtain ⟨h1, h2, h3, rfl, rfl⟩ := (pay_success_iff st c ca i s q a t1 t2).mp h
    rw [payTransfers_ok st c ca i s q a h1 h2 h3]
    rfl
  · intro hq hmul
    have hmuleq : u256mul (st.listings i s).rate q = (st.listings i s).rate * q :=
      Nat.mod_eq_of_lt hmul
    have hch : deduct_charge (st.listings i s).rate ≤ (st.listings i s).rate :=
      Nat.div_le_self _ _
    have hrmul : (st.listings i s).rate ≤ (st.listings i s).rate * q :=
      Nat.le_mul_of_pos_right _ (by omega)
    refine ⟨hch, ?_, ?_⟩
    · rw [hmuleq]
      exact hrmul
    · rw [hmuleq]
      exact u256sub_eq_sub _ _ (le_trans hch hrmul) hmul
  · intro hq h1000
    subst hq
    have hmul0 : u256mul (st.listings i s).rate 0 = 0 := by simp [u256mul]
    have hch1 : 1 ≤ deduct_charge (st.listings i s).rate := by
      have := Nat.div_le_div_right (c := 1000) h1000
      simpa [deduct_charge] using this
    have hchlt : deduct_charge (st.listings i s).rate < U256LIM :=
      lt_of_le_of_lt (Nat.div_le_self _ _) hr
    constructor
    · rw [hmul0]
      exact hch1
    · rw [hmul0]
      unfold u256sub
      rw [Nat.mod_eq_of_lt hchlt, Nat.zero_add,
        Nat.mod_eq_of_lt (by omega)]

/-- Witness for C10 (amended): at rate 5000 a payment of quantity 2 cannot underflow
(charge 5 ≤ price 10000), while a quantity-0 payment at the same listing wraps the
seller amount to `2 ^ 256 - 5`. -/
theorem charge_underflow_inst :
    ((payTransfers (run [Op.add 1 5 5000 10]) 2 7 5 1 2 10000 true true).head? =
        some { src := 2, dst := 1
               amount := u256sub (u256mul ((run [Op.add 1 5 5000 10]).listings 5 1).rate 2)
                 (deduct_charge ((run [Op.add 1 5 5000 10]).listings 5 1).rate) }) ∧
      (deduct_charge ((run [Op.add 1 5 5000 10]).listings 5 1).rate ≤
          ((run [Op.add 1 5 5000 10]).listings 5 1).rate ∧
        ((run [Op.add 1 5 5000 10]).listings 5 1).rate ≤
          u256mul ((run [Op.add 1 5 5000 10]).listings 5 1).rate 2 ∧
        u256sub (u256mul ((run [Op.add 1 5 5000 10]).listings 5 1).rate 2)
            (deduct_charge ((run [Op.add 1 5 5000 10]).listings 5 1).rate) =
          u256mul ((run [Op.add 1 5 5000 10]).listings 5 1).rate 2 -
            deduct_charge ((run [Op.add 1 5 5000 10]).listings 5 1).rate) ∧
      (u256mul ((run [Op.add 1 5 5000 10]).listings 5 1).rate 0 <
          deduct_charge ((run [Op.add 1 5 5000 10]).listings 5 1).rate ∧
        u256sub (u256mul ((run [Op.add 1 5 5000 10]).listings 5 1).rate 0)
            (deduct_charge ((run [Op.add 1 5 5000 10]).listings 5 1).rate) =
          U256LIM - deduct_charge ((run [Op.add 1 5 5000 10]).listings 5 1).rate) :=
  ⟨(charge_underflow (run [Op.add 1 5 5000 10]) 2 7 5 1 2 10000 true true (by decide)).1
      (by decide),
   (charge_underflow (run [Op.add 1 5 5000 10]) 2 7 5 1 2 10000 true true (by decide)).2.1
     (by decide) (by decide),
   (charge_underflow (run [Op.add 1 5 5000 10]) 2 7 5 1 0 10000 true true (by decide)).2.2
     rfl (by decide)⟩

/-- Counterexample to C6 as stated: after completing a listing, re-invoking
`add_listing` with the same id moves the listing out of `COMPLETED`, resetting it to
`PENDING` — `add_listing` never checks the stored status. -/
theorem status_transitions_cex :
    ((run [Op.add 1 5 100 10, Op.pay 2 7 5 1 10 1000 true true]).listings 5 1).status =
        Status.COMPLETED ∧
      ((run [Op.add 1 5 100 10, Op.pay 2 7 5 1 10 1000 true true,
          Op.add 1 5 100 10]).listings 5 1).status = Status.PENDING := by
  exact ⟨by decide, by decide⟩

/-- C6 (amended): no operation ever sets a listing's status to `CANCELLED`; the only
operations that change the listing at `(i, s)` are a successful `add_listing` by `s`
with id `i`, which (re)sets the status to `PENDING` — including from `COMPLETED`, the
one way out of that state — and a successful `pay_for_listing`, which requires the prior
status to be `PENDING` or `PAID` and moves it to `COMPLETED` exactly when the new
quantity is zero and to `PAID` otherwise. -/
theorem status_transitions (st : State) (op : Op) (i s : Nat) :
    ((step st op).listings i s ≠ st.listings i s →
      (∃ c r q, op = Op.add c i r q ∧ c = s ∧
          ((step st op).listings i s).status = Status.PENDING) ∨
      (∃ c ca q a, op = Op.pay c ca i s q a true true ∧
          ((st.listings i s).status = Status.PENDING ∨
            (st.listings i s).status = Status.PAID) ∧
          (((step st op).listings i s).status = Status.COMPLETED ∧
              ((step st op).listings i s).quantity = 0 ∨
            ((step st op).listings i s).status = Status.PAID ∧
              ((step st op).listings i s).quantity ≠ 0))) ∧
    (((step st op).listings i s).status = Status.CANCELLED →
      (st.listings i s).status = Status.CANCELLED) := by
  cases op with
  | init u =>
    exact ⟨fun hne => absurd rfl hne, fun hcan => hcan⟩
  | add c j r q =>
    by_cases hrq : r = 0 ∨ q = 0
    · have hA : step st (Op.add c j r q) = st := by
        simp only [step]
        exact addApply_error st c j r q hrq
      rw [hA]
      exact ⟨fun hne => absurd rfl hne, fun hcan => hcan⟩
    · obtain ⟨_, _, hlist⟩ := addApply_fields st c j r q hrq
      by_cases hkey : i = j ∧ s = c
      · obtain ⟨rfl, rfl⟩ := hkey
        have hpost : ((step st (Op.add s i r q)).listings i s).status = Status.PENDING := by
          simp only [step]
          rw [hlist i s]
          simp
        constructor
        · intro _
          exact Or.inl ⟨s, r, q, rfl, rfl, hpost⟩
        · intro hcan
          rw [hpost] at hcan
          cases hcan
      · have hsame : (step st (Op.add c j r q)).listings i s = st.listings i s := by
          simp only [step]
          rw [hlist i s, if_neg hkey]
        constructor
        · intro hne
          exact absurd hsame hne
        · intro hcan
          rw [hsame] at hcan
          exact hcan
  | pay c2 ca2 j s2 q2 a2 t1 t2 =>
    cases hpay : pay_for_listing st c2 ca2 j s2 q2 a2 t1 t2 with
    | error e =>
      have hA : step st (Op.pay c2 ca2 j s2 q2 a2 t1 t2) = st := by
        simp [step, payApply, hpay]
      rw [hA]
      exact ⟨fun hne => absurd rfl hne, fun hcan => hcan⟩
    | ok v =>
      obtain ⟨st1, ts⟩ := v
      obtain ⟨hs, hq, hshape⟩ := pay_ok_shape st c2 ca2 j s2 q2 a2 t1 t2 st1 ts hpay
      have hok : payOk st c2 ca2 j s2 q2 a2 t1 t2 = true := by simp [payOk, hpay]
      obtain ⟨-, -, -, rfl, rfl⟩ :=
        (pay_success_iff st c2 ca2 j s2 q2 a2 t1 t2).mp hok
      have hA : step st (Op.pay c2 ca2 j s2 q2 a2 true true) = st1 := by
        simp [step, payApply, hpay]
      by_cases hkey : i = j ∧ s = s2
      · obtain ⟨rfl, rfl⟩ := hkey
        have hpost : (step st (Op.pay c2 ca2 i s q2 a2 true true)).listings i s =
            { st.listings i s with
              buyer := c2
              quantity := (st.listings i s).quantity - q2
              status :=
                if (st.listings i s).quantity - q2 = 0 then Status.COMPLETED
                else Status.PAID } := by
          rw [hA, hshape]
          simp
        constructor
        · intro _
          refine Or.inr ⟨c2, ca2, q2, a2, rfl, hs, ?_⟩
          rw [hpost]
          by_cases hz : (st.listings i s).quantity - q2 = 0
          · exact Or.inl ⟨by simp [hz], by simpa using hz⟩
          · exact Or.inr ⟨by simp [hz], by simpa using hz⟩
        · intro hcan
          rw [hpost] at hcan
          by_cases hz : (st.listings i s).quantity - q2 = 0 <;> simp [hz] at hcan
      · have hsame : (step st (Op.pay c2 ca2 j s2 q2 a2 true true)).listings i s =
            st.listings i s := by
          rw [hA, hshape]
          simp [hkey]
        constructor
        · intro hne
          exact absurd hsame hne
        · intro hcan
          rw [hsame] at hcan
          exact hcan

/-- Witness for C6 (amended): re-creating the completed listing `(5, 1)` changes it, and
the theorem pins the change to a successful `add_listing` by the seller, landing on
`PENDING`. -/
theorem status_transitions_inst :
    (∃ c r q, (Op.add 1 5 100 10 : Op) = Op.add c 5 r q ∧ c = 1 ∧
        ((step (run [Op.add 1 5 100 10, Op.pay 2 7 5 1 10 1000 true true])
            (Op.add 1 5 100 10)).listings 5 1).status = Status.PENDING) ∨
      (∃ c ca q a, (Op.add 1 5 100 10 : Op) = Op.pay c ca 5 1 q a true true ∧
          (((run [Op.add 1 5 100 10, Op.pay 2 7 5 1 10 1000 true true]).listings 5 1).status =
              Status.PENDING ∨
            ((run [Op.add 1 5 100 10, Op.pay 2 7 5 1 10 1000 true true]).listings 5 1).status =
              Status.PAID) ∧
          (((step (run [Op.add 1 5 100 10, Op.pay 2 7 5 1 10 1000 true true])
                  (Op.add 1 5 100 10)).listings 5 1).status = Status.COMPLETED ∧
              ((step (run [Op.add 1 5 100 10, Op.pay 2 7 5 1 10 1000 true true])
                  (Op.add 1 5 100 10)).listings 5 1).quantity = 0 ∨
            ((step (run [Op.add 1 5 100 10, Op.pay 2 7 5 1 10 1000 true true])
                  (Op.add 1 5 100 10)).listings 5 1).status = Status.PAID ∧
              ((step (run [Op.add 1 5 100 10, Op.pay 2 7 5 1 10 1000 true true])
                  (Op.add 1 5 100 10)).listings 5 1).quantity ≠ 0)) :=
  (status_transitions (run [Op.add 1 5 100 10, Op.pay 2 7 5 1 10 1000 true true])
      (Op.add 1 5 100 10) 5 1).1 (by decide)

/-- The status/quantity/payment-history relationship a stored listing satisfies once its
key has been touched: `COMPLETED` exactly at quantity zero, and otherwise `PAID` after a
payment since the last creation and `PENDING` before any. -/
def ListingOK (l : Listing) (paid : Bool) : Prop :=
  (l.status = Status.COMPLETED ↔ l.quantity = 0) ∧
    (l.status ≠ Status.COMPLETED →
      (paid = true → l.status = Status.PAID) ∧ (paid = false → l.status = Status.PENDING))

/-- The ghost invariant: touched keys satisfy `ListingOK`; untouched keys still hold the
default listing and have no payment recorded. -/
def GInv (g : GState) : Prop :=
  ∀ i s, (g.touched i s = true → ListingOK (g.base.listings i s) (g.paidSince i s)) ∧
    (g.touched i s = false →
      g.base.listings i s = defaultListing ∧ g.paidSince i s = false)

theorem gInv_step (g : GState) (op : Op) (h : GInv g) : GInv (gstep g op) := by
  cases op with
  | init u => exact h
  | add c j r q =>
    cases hadd : add_listing g.base c j r q with
    | error e =>
      simpa [gstep, hadd] using h
    | ok st1 =>
      have hrq : ¬(r = 0 ∨ q = 0) := by
        intro hc
        rw [add_listing, if_pos hc] at hadd
        cases hadd
      have hA : addApply g.base c j r q = st1 := by simp [addApply, hadd]
      obtain ⟨-, -, hlist⟩ := addApply_fields g.base c j r q hrq
      rw [hA] at hlist
      have hg : gstep g (Op.add c j r q) =
          { base := st1
            paidSince := fun i2 s2 => if i2 = j ∧ s2 = c then false else g.paidSince i2 s2
            touched := fun i2 s2 => if i2 = j ∧ s2 = c then true else g.touched i2 s2 } := by
        simp [gstep, hadd]
      rw [hg]
      intro i s
      by_cases hkey : i = j ∧ s = c
      · refine ⟨fun _ => ?_, fun hf => ?_⟩
        · show ListingOK (st1.listings i s)
            (if i = j ∧ s = c then false else g.paidSince i s)
          rw [hlist i s, if_pos hkey, if_pos hkey]
          constructor
          · simp only [Listing.quantity, Listing.status]
            constructor
            · intro hcontra
              cases hcontra
            · intro hq0
              exact absurd (Or.inr hq0) hrq
          · exact fun _ => ⟨fun ht => (Bool.false_ne_true ht).elim, fun _ => rfl⟩
        · simp [hkey] at hf
      · refine ⟨fun ht => ?_, fun hf => ?_⟩
        · have ht2 : g.touched i s = true := by simpa [hkey] using ht
          show ListingOK (st1.listings i s)
            (if i = j ∧ s = c then false else g.paidSince i s)
          rw [hlist i s, if_neg hkey, if_neg hkey]
          exact (h i s).1 ht2
        · have hf2 : g.touched i s = false := by simpa [hkey] using hf
          obtain ⟨hd, hp⟩ := (h i s).2 hf2
          constructor
          · show st1.listings i s = defaultListing
            rw [hlist i s, if_neg hkey]
            exact hd
          · show (if i = j ∧ s = c then false else g.paidSince i s) = false
            rw [if_neg hkey]
            exact hp
  | pay c2 ca2 j s2 q2 a2 t1 t2 =>
    cases hpay : pay_for_listing g.base c2 ca2 j s2 q2 a2 t1 t2 with
    | error e =>
      simpa [gstep, hpay] using h
    | ok v =>
      obtain ⟨st1, ts⟩ := v
      obtain ⟨hs, hq, hshape⟩ := pay_ok_shape g.base c2 ca2 j s2 q2 a2 t1 t2 st1 ts hpay
      have hlist1 : ∀ i2 s2m, st1.listings i2 s2m =
          (if i2 = j ∧ s2m = s2 then
            { g.base.listings j s2 with
              buyer := c2
              quantity := (g.base.listings j s2).quantity - q2
              status :=
                if (g.base.listings j s2).quantity - q2 = 0 then Status.COMPLETED
                else Status.PAID }
           else g.base.listings i2 s2m) := by
        intro i2 s2m
        rw [hshape]
      have hg : gstep g (Op.pay c2 ca2 j s2 q2 a2 t1 t2) =
          { base := st1
            paidSince := fun i2 s2m => if i2 = j ∧ s2m = s2 then true else g.paidSince i2 s2m
            touched := fun i2 s2m => if i2 = j ∧ s2m = s2 then true else g.touched i2 s2m } := by
        simp [gstep, hpay]
      rw [hg]
      intro i s
      by_cases hkey : i = j ∧ s = s2
      · refine ⟨fun _ => ?_, fun hf => ?_⟩
        · show ListingOK (st1.listings i s)
            (if i = j ∧ s = s2 then true else g.paidSince i s)
          rw [hlist1 i s, if_pos hkey, if_pos hkey]
          by_cases hz : (g.base.listings j s2).quantity - q2 = 0
          · constructor
            · simp [hz]
            · simp [hz]
          · constructor
            · simp [hz]
            · intro _
              exact ⟨fun _ => by simp [hz], fun ht => nomatch ht⟩
        · simp [hkey] at hf
      · refine ⟨fun ht => ?_, fun hf => ?_⟩
        · have ht2 : g.touched i s = true := by simpa [hkey] using ht
          show ListingOK (st1.listings i s)
            (if i = j ∧ s = s2 then true else g.paidSince i s)
          rw [hlist1 i s, if_neg hkey, if_neg hkey]
          exact (h i s).1 ht2
        · have hf2 : g.touched i s = false := by simpa [hkey] using hf
          obtain ⟨hd, hp⟩ := (h i s).2 hf2
          constructor
          · show st1.listings i s = defaultListing
            rw [hlist1 i s, if_neg hkey]
            exact hd
          · show (if i = j ∧ s = s2 then true else g.paidSince i s) = false
            rw [if_neg hkey]
            exact hp

theorem gstep_base (g : GState) (op : Op) : (gstep g op).base = step g.base op := by
  cases op with
  | add c j r q =>
    cases hadd : add_listing g.base c j r q <;> simp [gstep, step, addApply, hadd]
  | pay c2 ca2 j s2 q2 a2 t1 t2 =>
    cases hpay : pay_for_listing g.base c2 ca2 j s2 q2 a2 t1 t2 with
    | error e => simp [gstep, step, payApply, hpay]
    | ok v =>
      obtain ⟨st1, ts⟩ := v
      simp [gstep, step, payApply, hpay]
  | init u => rfl

theorem grun_base (ops : List Op) : (grun ops).base = run ops := by
  have key : ∀ (l : List Op) (g : GState), (l.foldl gstep g).base = l.foldl step g.base := by
    intro l
    induction l with
    | nil => exact fun g => rfl
    | cons op rest ih =>
      intro g
      rw [List.foldl_cons, List.foldl_cons, ih, gstep_base]
  exact key ops ginit

theorem gInv_run (ops : List Op) : GInv (grun ops) := by
  have key : ∀ (l : List Op) (g : GState), GInv g → GInv (l.foldl gstep g) := by
    intro l
    induction l with
    | nil => exact fun g hg => hg
    | cons op rest ih => exact fun g hg => ih (gstep g op) (gInv_step g op hg)
  refine key ops ginit ?_
  intro i s
  exact ⟨fun ht => (Bool.false_ne_true ht).elim, fun _ => ⟨rfl, rfl⟩⟩

/-- Counterexample to C4 as stated: the fresh deployment is reachable (by the empty call
sequence) and its default listing at any key has quantity 0 while its status is the
default `PENDING`, not `COMPLETED`, so `status = COMPLETED ⇔ quantity = 0` fails on a
reachable listing state. -/
theorem status_quantity_invariant_cex :
    ((run []).listings 0 0).quantity = 0 ∧
      ((run []).listings 0 0).status ≠ Status.COMPLETED :=
  ⟨rfl, by decide⟩

/-- C4 (amended): in every reachable state, every listing whose key has been touched by
at least one successful creation or payment satisfies `status = COMPLETED` iff
`quantity = 0`, and when it is not COMPLETED its status is `PAID` if at least one
successful payment has been applied since the last creation and `PENDING` if none has.
(Untouched keys hold the default listing: quantity 0 with status `PENDING`.) -/
theorem status_quantity_invariant (ops : List Op) (i s : Nat)
    (h : (grun ops).touched i s = true) :
    (((run ops).listings i s).status = Status.COMPLETED ↔
        ((run ops).listings i s).quantity = 0) ∧
      (((run ops).listings i s).status ≠ Status.COMPLETED →
        ((grun ops).paidSince i s = true → ((run ops).listings i s).status = Status.PAID) ∧
          ((grun ops).paidSince i s = false →
            ((run ops).listings i s).status = Status.PENDING)) := by
  have hinv := (gInv_run ops) i s
  rw [grun_base] at hinv
  exact hinv.1 h

/-- Witness for C4 (amended): after creating `(5, 1)` and applying one partial payment,
the key is touched, the equivalence holds, and the recorded payment forces `PAID`. -/
theorem status_quantity_invariant_inst :
    (((run [Op.add 1 5 100 10, Op.pay 2 7 5 1 4 400 true true]).listings 5 1).status =
          Status.COMPLETED ↔
        ((run [Op.add 1 5 100 10, Op.pay 2 7 5 1 4 400 true true]).listings 5 1).quantity =
          0) ∧
      ((run [Op.add 1 5 100 10, Op.pay 2 7 5 1 4 400 true true]).listings 5 1).status =
        Status.PAID :=
  ⟨(status_quantity_invariant [Op.add 1 5 100 10, Op.pay 2 7 5 1 4 400 true true] 5 1
      (by decide)).1,
   ((status_quantity_invariant [Op.add 1 5 100 10, Op.pay 2 7 5 1 4 400 true true] 5 1
        (by decide)).2 (by decide)).1 (by decide)⟩

end MerchantPay
